import Mathlib

/-!
Shallow embedding of the hotel-booking business-logic layer
(`bll/models.py`, `bll/services.py`) together with the in-memory
repository used by its tests (`tests/in_memory_repository.py`).

Modelling conventions:
* Calendar dates are day numbers (`Int`); Python `date` only needs its
  total order and day-difference here, both preserved by this embedding.
* Money (`price_per_night`) is `ℚ`; the source uses a float, but every
  claim about prices involves exact small-integer arithmetic.
* A repository is its stored list.  Every mutating service operation is a
  pure function returning `Except Err result × state`, where the returned
  state is the list observable through `get_all` after the call — this
  makes the state after a *failed* call expressible, which several
  properties are about.
* `InMemoryRepository.get_by_id` returns the stored object itself (no
  copy), so a field assignment on the object a service obtained from
  `_find_by_id_or_raise` is immediately visible in the stored list.  Each
  such Python field assignment is therefore modelled by rebuilding the
  record and splicing it back over the first stored record with the same
  id (`replaceFirstBy`), at the moment the assignment happens.
-/

deriving instance DecidableEq for Except

namespace HotelSys

/-- Python's `str.isspace` set restricted to the ASCII whitespace that
`str.strip()` removes (space, tab, newline, carriage return, vertical
tab, form feed). -/
def isPySpace (c : Char) : Bool :=
  decide (c = ' ') || decide (c = '\t') || decide (c = '\n') || decide (c = '\r') ||
  decide (c = '\x0b') || decide (c = '\x0c')

/-- Python's `str.strip()`: drop leading and trailing whitespace. -/
def pyStrip (s : String) : String :=
  String.mk (((s.data.dropWhile isPySpace).reverse.dropWhile isPySpace).reverse)

/-- Status of a booking / request (`bll/models.py`, `BookingStatus`). -/
inductive BookingStatus : Type where
  | pending : BookingStatus
  | confirmed : BookingStatus
  | cancelled : BookingStatus
deriving DecidableEq, Repr

/-- Error taxonomy of the BLL (`bll/exceptions.py`): `ValidationError`
and `NotFoundError`.  Messages are presentation text and are not
modelled. -/
inductive Err : Type where
  | validation : Err
  | notFound : Err
deriving DecidableEq, Repr

/-- A hotel record (`bll/models.py`, `Hotel`). -/
structure Hotel : Type where
  id : Nat
  name : String
  city : String
  address : String
  description : String
deriving DecidableEq, Repr

/-- A room record (`bll/models.py`, `Room`). -/
structure Room : Type where
  id : Nat
  hotel_id : Nat
  number : String
  capacity : Int
  price_per_night : ℚ
deriving DecidableEq, Repr

/-- A client record (`bll/models.py`, `Client`). -/
structure Client : Type where
  id : Nat
  first_name : String
  last_name : String
  phone : String
  email : String
deriving DecidableEq, Repr

/-- A booking / request record (`bll/models.py`, `Booking`). -/
structure Booking : Type where
  id : Nat
  hotel_id : Nat
  room_id : Nat
  client_id : Nat
  check_in : Int
  check_out : Int
  status : BookingStatus
  request_text : String
deriving DecidableEq, Repr

/-- `Booking.duration_days` (`bll/models.py`): `(check_out - check_in).days`. -/
def Booking.duration_days (b : Booking) : Int :=
  b.check_out - b.check_in

/-- `InMemoryRepository.get_by_id` / `JsonRepository.get_by_id`: first
stored record whose `id` attribute equals the argument, else `none`. -/
def get_by_id {α : Type} (getId : α → Nat) : List α → Nat → Option α
  | [], _ => none
  | x :: xs, i => if getId x = i then some x else get_by_id getId xs i

/-- `BaseService._generate_id` (`bll/services.py` 45-49): 1 when the
collection is empty, otherwise `max(ids) + 1`. -/
def generate_id {α : Type} (getId : α → Nat) (items : List α) : Nat :=
  if items.isEmpty then 1 else (items.map getId).foldl Nat.max 0 + 1

/-- The write-back pattern shared by the update operations
(`for i, x in enumerate(items): if x.id == obj.id: items[i] = obj; break`),
which is also how an in-place mutation of the aliased object returned by
`get_by_id` shows up in the stored list. -/
def replaceFirstBy {α : Type} (getId : α → Nat) (a : α) : List α → List α
  | [] => []
  | x :: xs => if getId x = getId a then a :: xs else x :: replaceFirstBy getId a xs

/-! ### ClientService (`bll/services.py` 110-205) -/

/-- The `phone` / `email` steps of `ClientService.update_client`
(lines 164-168): unset fields are skipped, set fields are trimmed and
assigned (the assignment is visible in the stored list at once, see the
aliasing note above).  These two steps cannot fail. -/
def apply_phone_email (c : Client) (clients : List Client)
    (phone email : Option String) : Client × List Client :=
  let step1 : Client × List Client :=
    match phone with
    | none => (c, clients)
    | some s =>
      let c2 : Client := { c with phone := pyStrip s }
      (c2, replaceFirstBy Client.id c2 clients)
  match email with
  | none => step1
  | some s =>
    let c2 : Client := { step1.1 with email := pyStrip s }
    (c2, replaceFirstBy Client.id c2 step1.2)

/-- The `last_name` step of `ClientService.update_client` (lines 158-162)
followed by the remaining steps and the final write-back + `save_all`
(lines 170-175). -/
def apply_last_name (c : Client) (clients : List Client)
    (last_name phone email : Option String) : Except Err Client × List Client :=
  match last_name with
  | none =>
    let rest := apply_phone_email c clients phone email
    (Except.ok rest.1, replaceFirstBy Client.id rest.1 rest.2)
  | some s =>
    if pyStrip s = "" then (Except.error Err.validation, clients)
    else
      let c1 : Client := { c with last_name := pyStrip s }
      let rest := apply_phone_email c1 (replaceFirstBy Client.id c1 clients) phone email
      (Except.ok rest.1, replaceFirstBy Client.id rest.1 rest.2)

/-- `ClientService.update_client` (`bll/services.py` 142-176) over the
in-memory repository.  Field steps run in source order (first name, last
name, phone, email); each completed assignment is immediately observable
in the stored list because `get_by_id` returned the stored object. -/
def update_client (clients : List Client) (client_id : Nat)
    (first_name last_name phone email : Option String) :
    Except Err Client × List Client :=
  match get_by_id Client.id clients client_id with
  | none => (Except.error Err.notFound, clients)
  | some c =>
    match first_name with
    | none => apply_last_name c clients last_name phone email
    | some s =>
      if pyStrip s = "" then (Except.error Err.validation, clients)
      else
        let c1 : Client := { c with first_name := pyStrip s }
        apply_last_name c1 (replaceFirstBy Client.id c1 clients) last_name phone email

/-! ### BookingService (`bll/services.py` 208-480) -/

/-- The four repositories a `BookingService` reads (it writes only the
booking collection). -/
structure BookingState : Type where
  bookings : List Booking
  hotels : List Hotel
  rooms : List Room
  clients : List Client
deriving DecidableEq, Repr

/-- `BookingService._filter_bookings_by_period` (`bll/services.py`
247-261): keep the bookings whose half-open stay `[check_in, check_out)`
intersects the half-open window `[start_date, end_date)`. -/
def filter_bookings_by_period (bookings : List Booking)
    (start_date end_date : Int) : List Booking :=
  bookings.filter (fun b =>
    decide (b.check_in < end_date) && decide (b.check_out > start_date))

/-- `BookingService.add_request` (`bll/services.py` 265-298). -/
def add_request (st : BookingState) (hotel_id room_id client_id : Nat)
    (check_in check_out : Int) (text : String) :
    Except Err Booking × BookingState :=
  if check_in ≥ check_out then (Except.error Err.validation, st)
  else
    match get_by_id Hotel.id st.hotels hotel_id with
    | none => (Except.error Err.notFound, st)
    | some hotel =>
      match get_by_id Room.id st.rooms room_id with
      | none => (Except.error Err.notFound, st)
      | some room =>
        match get_by_id Client.id st.clients client_id with
        | none => (Except.error Err.notFound, st)
        | some client =>
          if room.hotel_id ≠ hotel.id then (Except.error Err.validation, st)
          else
            let booking : Booking :=
              { id := generate_id Booking.id st.bookings
                hotel_id := hotel.id
                room_id := room.id
                client_id := client.id
                check_in := check_in
                check_out := check_out
                status := BookingStatus.pending
                request_text := pyStrip text }
            (Except.ok booking, { st with bookings := st.bookings ++ [booking] })

/-- `BookingService.delete_request` (`bll/services.py` 302-307). -/
def delete_request (bookings : List Booking) (booking_id : Nat) :
    Except Err Unit × List Booking :=
  let new_items := bookings.filter (fun b => decide (b.id ≠ booking_id))
  if new_items.length = bookings.length then (Except.error Err.notFound, bookings)
  else (Except.ok (), new_items)

/-- `BookingService.update_request_text` (`bll/services.py` 311-324). -/
def update_request_text (bookings : List Booking) (booking_id : Nat)
    (new_text : String) : Except Err Booking × List Booking :=
  match get_by_id Booking.id bookings booking_id with
  | none => (Except.error Err.notFound, bookings)
  | some booking =>
    let updated : Booking := { booking with request_text := pyStrip new_text }
    (Except.ok updated, replaceFirstBy Booking.id updated bookings)

/-- `BookingService.confirm_booking` (`bll/services.py` 345-360). -/
def confirm_booking (bookings : List Booking) (booking_id : Nat) :
    Except Err Booking × List Booking :=
  match get_by_id Booking.id bookings booking_id with
  | none => (Except.error Err.notFound, bookings)
  | some booking =>
    if booking.status = BookingStatus.cancelled then
      (Except.error Err.validation, bookings)
    else
      let updated : Booking := { booking with status := BookingStatus.confirmed }
      (Except.ok updated, replaceFirstBy Booking.id updated bookings)

/-- `BookingService.cancel_booking` (`bll/services.py` 364-377):
sets the status unconditionally. -/
def cancel_booking (bookings : List Booking) (booking_id : Nat) :
    Except Err Booking × List Booking :=
  match get_by_id Booking.id bookings booking_id with
  | none => (Except.error Err.notFound, bookings)
  | some booking =>
    let updated : Booking := { booking with status := BookingStatus.cancelled }
    (Except.ok updated, replaceFirstBy Booking.id updated bookings)

/-- `BookingService.get_requests_in_period` (`bll/services.py` 328-341). -/
def get_requests_in_period (st : BookingState) (hotel_id : Nat)
    (start_date end_date : Int) : Except Err (List Booking) :=
  match get_by_id Hotel.id st.hotels hotel_id with
  | none => Except.error Err.notFound
  | some _ =>
    Except.ok (filter_bookings_by_period
      (st.bookings.filter (fun b =>
        decide (b.hotel_id = hotel_id) && decide (b.status = BookingStatus.pending)))
      start_date end_date)

/-- The local `confirmed_in_period` of `BookingService.get_reserved_places`
(`bll/services.py` 402-409): bookings of the hotel with status Confirmed
that overlap the window. -/
def confirmed_in_period (st : BookingState) (hotel_id : Nat)
    (start_date end_date : Int) : List Booking :=
  filter_bookings_by_period
    (st.bookings.filter (fun b =>
      decide (b.hotel_id = hotel_id) && decide (b.status = BookingStatus.confirmed)))
    start_date end_date

/-- The accumulation loop of `BookingService.get_reserved_places`
(`bll/services.py` 411-422): resolve each booking's room (`NotFoundError`
aborts the whole call), add its capacity per booking occurrence, and
collect each room once, first seen first. -/
def get_reserved_aux (rooms : List Room) :
    List Booking → Int → List Room → List Nat → Except Err (Int × List Room)
  | [], total, reserved, _ => Except.ok (total, reserved)
  | b :: rest, total, reserved, seen =>
    match get_by_id Room.id rooms b.room_id with
    | none => Except.error Err.notFound
    | some room =>
      if room.id ∈ seen then
        get_reserved_aux rooms rest (total + room.capacity) reserved seen
      else
        get_reserved_aux rooms rest (total + room.capacity)
          (reserved ++ [room]) (seen ++ [room.id])

/-- `BookingService.get_reserved_places` (`bll/services.py` 389-422). -/
def get_reserved_places (st : BookingState) (hotel_id : Nat)
    (start_date end_date : Int) : Except Err (Int × List Room) :=
  match get_by_id Hotel.id st.hotels hotel_id with
  | none => Except.error Err.notFound
  | some _ =>
    get_reserved_aux st.rooms (confirmed_in_period st hotel_id start_date end_date) 0 [] []

/-- `BookingService.get_free_places` (`bll/services.py` 426-452). -/
def get_free_places (st : BookingState) (hotel_id : Nat)
    (start_date end_date : Int) : Except Err (Int × List Room) :=
  match get_by_id Hotel.id st.hotels hotel_id with
  | none => Except.error Err.notFound
  | some _ =>
    let all_rooms := st.rooms.filter (fun r => decide (r.hotel_id = hotel_id))
    match get_reserved_places st hotel_id start_date end_date with
    | Except.error er => Except.error er
    | Except.ok reserved =>
      let reserved_ids := reserved.2.map Room.id
      let free_rooms := all_rooms.filter (fun r => decide (r.id ∉ reserved_ids))
      Except.ok (free_rooms.foldl (fun acc r => acc + r.capacity) 0, free_rooms)

/-- `BookingService.calculate_booking_price` (`bll/services.py` 456-462). -/
def calculate_booking_price (st : BookingState) (booking_id : Nat) :
    Except Err ℚ :=
  match get_by_id Booking.id st.bookings booking_id with
  | none => Except.error Err.notFound
  | some booking =>
    match get_by_id Room.id st.rooms booking.room_id with
    | none => Except.error Err.notFound
    | some room =>
      if booking.duration_days ≤ 0 then Except.error Err.validation
      else Except.ok (room.price_per_night * (booking.duration_days : ℚ))

/-- First-seen deduplication of a list of ids.  `get_clients_with_bookings`
builds a Python `set` of client ids and iterates it; set iteration order
is unspecified, so the embedding fixes first-seen order — every claim
about the result is order-independent. -/
def dedupNats : List Nat → List Nat
  | [] => []
  | x :: xs => x :: (dedupNats xs).filter (fun y => decide (y ≠ x))

/-- `BookingService.get_clients_with_bookings` (`bll/services.py` 467-480):
distinct client ids of the hotel's Confirmed bookings, each resolved to a
client record, unresolved ids silently skipped. -/
def get_clients_with_bookings (st : BookingState) (hotel_id : Nat) :
    Except Err (List Client) :=
  match get_by_id Hotel.id st.hotels hotel_id with
  | none => Except.error Err.notFound
  | some _ =>
    let bookings := st.bookings.filter (fun b =>
      decide (b.hotel_id = hotel_id) && decide (b.status = BookingStatus.confirmed))
    let client_ids := dedupNats (bookings.map Booking.client_id)
    Except.ok (client_ids.filterMap (fun cid => get_by_id Client.id st.clients cid))

/-! ### Specification-side functions

These are written from the specification's words, to be *related* to the
functions above: per-booking room resolution, and first-seen
deduplication of a room list by id. -/

/-- Resolve the room of every booking in the list, failing if any one is
missing (the spec's "resolve its room ... propagates, is not swallowed"). -/
def resolveRooms (rooms : List Room) : List Booking → Option (List Room)
  | [] => some []
  | b :: bs =>
    match get_by_id Room.id rooms b.room_id with
    | none => none
    | some r => (resolveRooms rooms bs).map (fun rs => r :: rs)

/-- First-seen deduplication of a room list by room id (the spec's
"deduplicated by room id, first-seen order"). -/
def dedupById : List Room → List Room
  | [] => []
  | r :: rs => r :: (dedupById rs).filter (fun x => decide (x.id ≠ r.id))

/-- The room list the specification prescribes for `get_free_places`:
the hotel's rooms whose id does not occur in the reserved-room list. -/
def freeRoomsSpec (st : BookingState) (hotel_id : Nat) (reserved : List Room) : List Room :=
  (st.rooms.filter (fun r => decide (r.hotel_id = hotel_id))).filter
    (fun r => decide (r.id ∉ reserved.map Room.id))

/-- Generalisation of `dedupById` to a non-empty set of already-seen room
ids, matching the accumulator of `get_reserved_aux`. -/
def dedupSkip (seen : List Nat) : List Room → List Room
  | [] => []
  | r :: rs =>
    if r.id ∈ seen then dedupSkip seen rs
    else r :: (dedupSkip seen rs).filter (fun x => decide (x.id ≠ r.id))

/-! ### Concrete records used to instantiate the theorems

These reproduce the scenario of the specification's §8: one hotel, two
rooms (capacities 2 and 3, prices 100 and 150), one client, and one
confirmed booking of room 1 for `[2025-01-01, 2025-01-03)` (day numbers
0 and 2, with 2025-01-01 as day 0). -/

def exHotel : Hotel :=
  { id := 1, name := "Grand", city := "Kyiv", address := "Main 1", description := "demo" }

def exRoom1 : Room :=
  { id := 1, hotel_id := 1, number := "101", capacity := 2, price_per_night := 100 }

def exRoom2 : Room :=
  { id := 2, hotel_id := 1, number := "102", capacity := 3, price_per_night := 150 }

def exClient : Client :=
  { id := 1, first_name := "Ivan", last_name := "Petrenko", phone := "111", email := "i@e.com" }

def exBooking : Booking :=
  { id := 1
    hotel_id := 1
    room_id := 1
    client_id := 1
    check_in := 0
    check_out := 2
    status := BookingStatus.confirmed
    request_text := "" }

def exState : BookingState :=
  { bookings := [exBooking]
    hotels := [exHotel]
    rooms := [exRoom1, exRoom2]
    clients := [exClient] }

/-- A pending copy of the demo booking, for the lifecycle claims. -/
def exPending : Booking := { exBooking with id := 2, status := BookingStatus.pending }

/-- A cancelled copy of the demo booking, for the lifecycle claims. -/
def exCancelled : Booking := { exBooking with id := 3, status := BookingStatus.cancelled }

/-- One stored client, used to exhibit the partial-mutation behaviour of
`update_client` on a failing call. -/
def exStoredClient : Client :=
  { id := 1, first_name := "Old", last_name := "Last", phone := "p", email := "e" }

/-- The specification's pricing example: a three-night stay
(2025-01-01 → 2025-01-04, day numbers 0 → 3) in the 100-per-night room. -/
def exBookingThreeNights : Booking := { exBooking with check_out := 3 }

/-- Demo state whose single booking is the three-night pricing example. -/
def exPriceState : BookingState := { exState with bookings := [exBookingThreeNights] }

/-! ### Repository lemmas -/

theorem get_by_id_eq_id {α : Type} (getId : α → Nat) :
    ∀ (l : List α) (i : Nat) (x : α), get_by_id getId l i = some x → getId x = i := by
  intro l
  induction l with
  | nil => intro i x h; simp [get_by_id] at h
  | cons y ys ih =>
    intro i x h
    by_cases hy : getId y = i
    · rw [get_by_id, if_pos hy] at h
      cases h
      exact hy
    · rw [get_by_id, if_neg hy] at h
      exact ih i x h

theorem get_by_id_mem {α : Type} (getId : α → Nat) :
    ∀ (l : List α) (i : Nat) (x : α), get_by_id getId l i = some x → x ∈ l := by
  intro l
  induction l with
  | nil => intro i x h; simp [get_by_id] at h
  | cons y ys ih =>
    intro i x h
    by_cases hy : getId y = i
    · rw [get_by_id, if_pos hy] at h
      cases h
      exact List.mem_cons_self y ys
    · rw [get_by_id, if_neg hy] at h
      exact List.mem_cons_of_mem y (ih i x h)

theorem get_by_id_split {α : Type} (getId : α → Nat) :
    ∀ (l : List α) (i : Nat) (x : α), get_by_id getId l i = some x →
      ∃ l1 l2, l = l1 ++ x :: l2 ∧ ∀ y ∈ l1, getId y ≠ i := by
  intro l
  induction l with
  | nil => intro i x h; simp [get_by_id] at h
  | cons y ys ih =>
    intro i x h
    by_cases hy : getId y = i
    · rw [get_by_id, if_pos hy] at h
      cases h
      exact ⟨[], ys, rfl, by intro z hz; simp at hz⟩
    · rw [get_by_id, if_neg hy] at h
      obtain ⟨l1, l2, hl, hfree⟩ := ih i x h
      refine ⟨y :: l1, l2, by rw [hl]; rfl, ?_⟩
      intro z hz
      rcases List.mem_cons.mp hz with hz | hz
      · rw [hz]; exact hy
      · exact hfree z hz

theorem replaceFirstBy_append {α : Type} (getId : α → Nat) (a x : α) :
    ∀ (l1 l2 : List α), (∀ y ∈ l1, getId y ≠ getId a) → getId x = getId a →
      replaceFirstBy getId a (l1 ++ x :: l2) = l1 ++ a :: l2 := by
  intro l1
  induction l1 with
  | nil =>
    intro l2 _ hx
    simp only [List.nil_append, replaceFirstBy, if_pos hx]
  | cons z zs ih =>
    intro l2 hfree hx
    have hz : getId z ≠ getId a := hfree z (List.mem_cons_self z zs)
    simp only [List.cons_append, replaceFirstBy, if_neg hz]
    exact congrArg (fun t => z :: t)
      (ih l2 (fun y hy => hfree y (List.mem_cons_of_mem z hy)) hx)

/-! ### Id-generation lemmas -/

theorem foldl_max_init : ∀ (l : List Nat) (a : Nat), a ≤ l.foldl Nat.max a := by
  intro l
  induction l with
  | nil => intro a; simp
  | cons x xs ih =>
    intro a
    exact le_trans (Nat.le_max_left a x) (ih (Nat.max a x))

theorem le_foldl_max : ∀ (l : List Nat) (a x : Nat), x ∈ l → x ≤ l.foldl Nat.max a := by
  intro l
  induction l with
  | nil => intro a x hx; simp at hx
  | cons y ys ih =>
    intro a x hx
    rcases List.mem_cons.mp hx with hx | hx
    · rw [hx]
      exact le_trans (Nat.le_max_right a y) (foldl_max_init ys (Nat.max a y))
    · exact ih (Nat.max a y) x hx

theorem foldl_max_mem : ∀ (l : List Nat) (a : Nat),
    l.foldl Nat.max a = a ∨ l.foldl Nat.max a ∈ l := by
  intro l
  induction l with
  | nil => intro a; left; rfl
  | cons y ys ih =>
    intro a
    rcases ih (Nat.max a y) with h | h
    · rcases Nat.le_total a y with hay | hya
      · right
        have hm : Nat.max a y = y := Nat.max_eq_right hay
        rw [List.foldl_cons, h, hm]
        exact List.mem_cons_self y ys
      · left
        have hm : Nat.max a y = a := Nat.max_eq_left hya
        rw [List.foldl_cons, h, hm]
    · right
      exact List.mem_cons_of_mem y h

theorem lt_generate_id {α : Type} (getId : α → Nat) (items : List α) (x : α)
    (hx : x ∈ items) : getId x < generate_id getId items := by
  have hne : items.isEmpty = false := by
    cases items with
    | nil => simp at hx
    | cons y ys => rfl
  rw [generate_id, hne]
  simp only [Bool.false_eq_true, if_false]
  exact Nat.lt_succ_of_le (le_foldl_max (items.map getId) 0 (getId x)
    (List.mem_map_of_mem getId hx))

theorem generate_id_succ {α : Type} (getId : α → Nat) (items : List α)
    (hne : items ≠ []) : ∃ x ∈ items, generate_id getId items = getId x + 1 := by
  have hne' : items.isEmpty = false := by
    cases items with
    | nil => exact absurd rfl hne
    | cons y ys => rfl
  rw [generate_id, hne']
  simp only [Bool.false_eq_true, if_false]
  rcases foldl_max_mem (items.map getId) 0 with h | h
  · cases items with
    | nil => exact absurd rfl hne
    | cons y ys =>
      refine ⟨y, List.mem_cons_self y ys, ?_⟩
      have hy : getId y ≤ ((y :: ys).map getId).foldl Nat.max 0 :=
        le_foldl_max _ 0 (getId y) (List.mem_map_of_mem getId (List.mem_cons_self y ys))
      rw [h] at hy
      have : getId y = 0 := Nat.le_zero.mp hy
      rw [h, this]
  · obtain ⟨x, hxmem, hxeq⟩ := List.mem_map.mp h
    exact ⟨x, hxmem, by rw [hxeq]⟩

/-! ### Period-filter lemmas -/

theorem mem_filter_period {l : List Booking} {s e : Int} {b : Booking} :
    b ∈ filter_bookings_by_period l s e ↔
      b ∈ l ∧ b.check_in < e ∧ b.check_out > s := by
  simp [filter_bookings_by_period, List.mem_filter]

/-! ### Reserved-places loop lemmas -/

theorem get_reserved_aux_error (rooms : List Room) :
    ∀ (bs : List Booking) (total : Int) (reserved : List Room) (seen : List Nat),
      resolveRooms rooms bs = none →
      get_reserved_aux rooms bs total reserved seen = Except.error Err.notFound := by
  intro bs
  induction bs with
  | nil => intro total reserved seen h; simp [resolveRooms] at h
  | cons b rest ih =>
    intro total reserved seen h
    cases hr : get_by_id Room.id rooms b.room_id with
    | none => simp [get_reserved_aux, hr]
    | some room =>
      rw [resolveRooms, hr] at h
      have hrest : resolveRooms rooms rest = none := by
        cases hrec : resolveRooms rooms rest with
        | none => rfl
        | some rs => rw [hrec] at h; simp [Option.map] at h
      simp only [get_reserved_aux, hr]
      by_cases hin : room.id ∈ seen
      · rw [if_pos hin]; exact ih _ _ _ hrest
      · rw [if_neg hin]; exact ih _ _ _ hrest

theorem dedupSkip_append_seen :
    ∀ (rs : List Room) (seen : List Nat) (i : Nat),
      dedupSkip (seen ++ [i]) rs = (dedupSkip seen rs).filter (fun x => decide (x.id ≠ i)) := by
  intro rs
  induction rs with
  | nil => intro seen i; simp [dedupSkip]
  | cons r rest ih =>
    intro seen i
    by_cases hin : r.id ∈ seen
    · have hin' : r.id ∈ seen ++ [i] := List.mem_append_left _ hin
      rw [dedupSkip, if_pos hin', dedupSkip, if_pos hin]
      exact ih seen i
    · by_cases hri : r.id = i
      · have hin' : r.id ∈ seen ++ [i] := by
          rw [hri]; exact List.mem_append_right _ (List.mem_singleton_self i)
        rw [dedupSkip, if_pos hin', dedupSkip, if_neg hin]
        rw [List.filter_cons_of_neg (by simp [hri]), ih seen i, List.filter_filter]
        have : ∀ x : Room,
            (decide (x.id ≠ i) && decide (x.id ≠ r.id)) = decide (x.id ≠ i) := by
          intro x
          rw [hri]
          exact Bool.and_self _
        rw [List.filter_congr (fun x _ => this x)]
      · have hin' : r.id ∉ seen ++ [i] := by
          intro hmem
          rcases List.mem_append.mp hmem with hmem | hmem
          · exact hin hmem
          · exact hri (List.mem_singleton.mp hmem)
        rw [dedupSkip, if_neg hin', dedupSkip, if_neg hin]
        rw [List.filter_cons_of_pos (by simp [hri]), ih seen i, List.filter_filter,
          List.filter_filter]
        have : ∀ x : Room,
            (decide (x.id ≠ r.id) && decide (x.id ≠ i)) =
              (decide (x.id ≠ i) && decide (x.id ≠ r.id)) := by
          intro x
          exact Bool.and_comm _ _
        rw [List.filter_congr (fun x _ => this x)]

theorem dedupSkip_nil_eq : ∀ (rs : List Room), dedupSkip [] rs = dedupById rs := by
  intro rs
  induction rs with
  | nil => rfl
  | cons r rest ih =>
    rw [dedupSkip, if_neg (List.not_mem_nil r.id), dedupById, ih]

theorem get_reserved_aux_ok (rooms : List Room) :
    ∀ (bs : List Booking) (rs : List Room) (total : Int) (reserved : List Room)
      (seen : List Nat),
      resolveRooms rooms bs = some rs →
      get_reserved_aux rooms bs total reserved seen =
        Except.ok (total + (rs.map Room.capacity).sum, reserved ++ dedupSkip seen rs) := by
  intro bs
  induction bs with
  | nil =>
    intro rs total reserved seen h
    rw [resolveRooms] at h
    cases h
    simp [get_reserved_aux, dedupSkip]
  | cons b rest ih =>
    intro rs total reserved seen h
    cases hr : get_by_id Room.id rooms b.room_id with
    | none => rw [resolveRooms, hr] at h; simp at h
    | some room =>
      rw [resolveRooms, hr] at h
      cases hrec : resolveRooms rooms rest with
      | none => rw [hrec] at h; simp [Option.map] at h
      | some rs' =>
        rw [hrec] at h
        simp only [Option.map, Option.some.injEq] at h
        subst h
        simp only [get_reserved_aux, hr]
        by_cases hin : room.id ∈ seen
        · rw [if_pos hin, ih rs' (total + room.capacity) reserved seen hrec]
          rw [dedupSkip, if_pos hin]
          rw [List.map_cons, List.sum_cons]
          ring_nf
        · rw [if_neg hin, ih rs' (total + room.capacity) (reserved ++ [room])
            (seen ++ [room.id]) hrec]
          rw [dedupSkip, if_neg hin, dedupSkip_append_seen]
          rw [List.map_cons, List.sum_cons, List.append_assoc]
          ring_nf
          rw [List.singleton_append]

theorem get_reserved_aux_subset (rooms : List Room) :
    ∀ (bs : List Booking) (total tot : Int) (reserved out : List Room)
      (seen : List Nat),
      get_reserved_aux rooms bs total reserved seen = Except.ok (tot, out) →
      ∀ r ∈ out, r ∈ reserved ∨ r ∈ rooms := by
  intro bs
  induction bs with
  | nil =>
    intro total tot reserved out seen h r hr
    rw [get_reserved_aux] at h
    cases h
    exact Or.inl hr
  | cons b rest ih =>
    intro total tot reserved out seen h r hr
    cases hres : get_by_id Room.id rooms b.room_id with
    | none => rw [get_reserved_aux, hres] at h; cases h
    | some room =>
      simp only [get_reserved_aux, hres] at h
      by_cases hin : room.id ∈ seen
      · rw [if_pos hin] at h
        exact ih _ _ _ _ _ h r hr
      · rw [if_neg hin] at h
        rcases ih _ _ _ _ _ h r hr with hcase | hcase
        · rcases List.mem_append.mp hcase with hcase | hcase
          · exact Or.inl hcase
          · right
            rw [List.mem_singleton.mp hcase]
            exact get_by_id_mem Room.id rooms b.room_id room hres
        · exact Or.inr hcase

/-! ### Deduplication lemmas -/

theorem dedupById_sublist : ∀ (rs : List Room), (dedupById rs).Sublist rs := by
  intro rs
  induction rs with
  | nil => exact List.Sublist.refl []
  | cons r rest ih =>
    rw [dedupById]
    exact List.Sublist.cons₂ r (List.Sublist.trans (List.filter_sublist _) ih)

theorem dedupById_nodup : ∀ (rs : List Room), ((dedupById rs).map Room.id).Nodup := by
  intro rs
  induction rs with
  | nil => simp [dedupById]
  | cons r rest ih =>
    rw [dedupById, List.map_cons, List.nodup_cons]
    constructor
    · intro hmem
      obtain ⟨x, hx, hxid⟩ := List.mem_map.mp hmem
      have := List.of_mem_filter hx
      simp at this
      exact this hxid
    · exact List.Nodup.sublist (List.Sublist.map Room.id (List.filter_sublist _)) ih

theorem dedupById_covers : ∀ (rs : List Room) (r : Room), r ∈ rs →
    ∃ x ∈ dedupById rs, x.id = r.id := by
  intro rs
  induction rs with
  | nil => intro r hr; simp at hr
  | cons y ys ih =>
    intro r hr
    rcases List.mem_cons.mp hr with hr | hr
    · exact ⟨y, List.mem_cons_self y _, by rw [hr]⟩
    · obtain ⟨x, hx, hxid⟩ := ih r hr
      by_cases hxy : x.id = y.id
      · exact ⟨y, List.mem_cons_self y _, by rw [← hxy, hxid]⟩
      · refine ⟨x, ?_, hxid⟩
        rw [dedupById]
        exact List.mem_cons_of_mem y (List.mem_filter.mpr ⟨hx, by simpa using hxy⟩)

theorem mem_dedupNats : ∀ (l : List Nat) (x : Nat), x ∈ dedupNats l ↔ x ∈ l := by
  intro l
  induction l with
  | nil => intro x; simp [dedupNats]
  | cons y ys ih =>
    intro x
    rw [dedupNats]
    constructor
    · intro hx
      rcases List.mem_cons.mp hx with hx | hx
      · rw [hx]; exact List.mem_cons_self y ys
      · exact List.mem_cons_of_mem y ((ih x).mp (List.mem_of_mem_filter hx))
    · intro hx
      rcases List.mem_cons.mp hx with hx | hx
      · rw [hx]; exact List.mem_cons_self y _
      · by_cases hxy : x = y
        · rw [hxy]; exact List.mem_cons_self y _
        · exact List.mem_cons_of_mem y
            (List.mem_filter.mpr ⟨(ih x).mpr hx, by simpa using hxy⟩)

theorem dedupNats_nodup : ∀ (l : List Nat), (dedupNats l).Nodup := by
  intro l
  induction l with
  | nil => simp [dedupNats]
  | cons y ys ih =>
    rw [dedupNats, List.nodup_cons]
    constructor
    · intro hmem
      have := List.of_mem_filter hmem
      simp at this
    · exact List.Nodup.filter _ ih

/-! ### Capacity-sum lemma -/

theorem foldl_capacity : ∀ (l : List Room) (a : Int),
    l.foldl (fun acc r => acc + r.capacity) a = a + (l.map Room.capacity).sum := by
  intro l
  induction l with
  | nil => intro a; simp
  | cons r rest ih =>
    intro a
    rw [List.foldl_cons, ih (a + r.capacity), List.map_cons, List.sum_cons]
    ring

/-! ### Claim theorems -/

/-- C1: for every booking and query window, the period filter used by all
period queries reports a booking if and only if `check_in < end` and
`check_out > start`; in particular a booking with `check_out = start` or
`check_in = end` is not reported. -/
theorem period_filter_overlap_iff (bookings : List Booking)
    (start_date end_date : Int) (b : Booking) :
    b ∈ filter_bookings_by_period bookings start_date end_date ↔
      b ∈ bookings ∧ b.check_in < end_date ∧ b.check_out > start_date :=
  mem_filter_period

/-- C4: `confirm_booking` fails with `ValidationError` exactly when the
booking's current status is Cancelled, and otherwise succeeds with
resulting status Confirmed (also when already Confirmed);
`cancel_booking` ignores the current status and always results in status
Cancelled.  Hence a Cancelled booking can never leave that status through
these operations. -/
theorem booking_status_transitions (l : List Booking) (bid : Nat) (b : Booking)
    (h : get_by_id Booking.id l bid = some b) :
    (b.status = BookingStatus.cancelled →
      confirm_booking l bid = (Except.error Err.validation, l))
    ∧ (b.status ≠ BookingStatus.cancelled →
        confirm_booking l bid =
          (Except.ok { b with status := BookingStatus.confirmed },
            replaceFirstBy Booking.id { b with status := BookingStatus.confirmed } l))
    ∧ cancel_booking l bid =
        (Except.ok { b with status := BookingStatus.cancelled },
          replaceFirstBy Booking.id { b with status := BookingStatus.cancelled } l)
    ∧ (∀ st', confirm_booking l bid = (Except.error Err.validation, st') →
        b.status = BookingStatus.cancelled ∧ st' = l) := by
  refine ⟨?_, ?_, ?_, ?_⟩
  · intro hc
    simp only [confirm_booking, h, if_pos hc]
  · intro hc
    simp only [confirm_booking, h, if_neg hc]
  · simp only [cancel_booking, h]
  · intro st' heq
    by_cases hc : b.status = BookingStatus.cancelled
    · simp only [confirm_booking, h, if_pos hc] at heq
      exact ⟨hc, (congrArg Prod.snd heq).symm⟩
    · simp only [confirm_booking, h, if_neg hc] at heq
      have := congrArg Prod.fst heq
      simp at this

/-- Witness for C4 at the concrete cancelled booking `exCancelled`. -/
theorem booking_status_transitions_witness :
    confirm_booking [exBooking, exPending, exCancelled] 3 =
      (Except.error Err.validation, [exBooking, exPending, exCancelled]) :=
  (booking_status_transitions [exBooking, exPending, exCancelled] 3 exCancelled
    (by decide)).1 (by decide)

/-- C10: on an existing booking, `update_request_text` changes exactly the
`request_text` field of the targeted (first-matching) booking and
`confirm_booking` / `cancel_booking` change exactly its `status` field:
the record built with `{ b with ... }` keeps every other field, and the
surrounding lists `l1`, `l2` — all other bookings, in their original
order — are returned untouched. -/
theorem single_booking_frame (l : List Booking) (bid : Nat) (b : Booking)
    (h : get_by_id Booking.id l bid = some b) :
    ∃ l1 l2, l = l1 ++ b :: l2 ∧ (∀ y ∈ l1, y.id ≠ bid)
      ∧ (∀ t, update_request_text l bid t =
          (Except.ok { b with request_text := pyStrip t },
            l1 ++ { b with request_text := pyStrip t } :: l2))
      ∧ (b.status ≠ BookingStatus.cancelled →
          confirm_booking l bid =
            (Except.ok { b with status := BookingStatus.confirmed },
              l1 ++ { b with status := BookingStatus.confirmed } :: l2))
      ∧ (b.status = BookingStatus.cancelled →
          confirm_booking l bid = (Except.error Err.validation, l))
      ∧ cancel_booking l bid =
          (Except.ok { b with status := BookingStatus.cancelled },
            l1 ++ { b with status := BookingStatus.cancelled } :: l2) := by
  obtain ⟨l1, l2, hl, hfree⟩ := get_by_id_split Booking.id l bid b h
  have hbid : b.id = bid := get_by_id_eq_id Booking.id l bid b h
  have hrep : ∀ b' : Booking, b'.id = b.id →
      replaceFirstBy Booking.id b' l = l1 ++ b' :: l2 := by
    intro b' hb'
    rw [hl]
    exact replaceFirstBy_append Booking.id b' b l1 l2
      (fun y hy => by rw [hb', hbid]; exact hfree y hy) (by rw [hb'])
  refine ⟨l1, l2, hl, fun y hy => hfree y hy, ?_, ?_, ?_, ?_⟩
  · intro t
    simp only [update_request_text, h]
    rw [hrep { b with request_text := pyStrip t } rfl]
  · intro hc
    simp only [confirm_booking, h, if_neg hc]
    rw [hrep { b with status := BookingStatus.confirmed } rfl]
  · intro hc
    simp only [confirm_booking, h, if_pos hc]
  · simp only [cancel_booking, h]
    rw [hrep { b with status := BookingStatus.cancelled } rfl]

/-- Witness for C10: the frame property applied to the pending demo
booking, evaluated on a concrete three-booking list. -/
theorem single_booking_frame_witness :
    (∃ l1 l2, [exBooking, exPending, exCancelled] = l1 ++ exPending :: l2
      ∧ (∀ y ∈ l1, y.id ≠ 2)
      ∧ (∀ t, update_request_text [exBooking, exPending, exCancelled] 2 t =
          (Except.ok { exPending with request_text := pyStrip t },
            l1 ++ { exPending with request_text := pyStrip t } :: l2))
      ∧ (exPending.status ≠ BookingStatus.cancelled →
          confirm_booking [exBooking, exPending, exCancelled] 2 =
            (Except.ok { exPending with status := BookingStatus.confirmed },
              l1 ++ { exPending with status := BookingStatus.confirmed } :: l2))
      ∧ (exPending.status = BookingStatus.cancelled →
          confirm_booking [exBooking, exPending, exCancelled] 2 =
            (Except.error Err.validation, [exBooking, exPending, exCancelled]))
      ∧ cancel_booking [exBooking, exPending, exCancelled] 2 =
          (Except.ok { exPending with status := BookingStatus.cancelled },
            l1 ++ { exPending with status := BookingStatus.cancelled } :: l2)) :=
  single_booking_frame [exBooking, exPending, exCancelled] 2 exPending (by decide)

/-- C5: the preconditions of `add_request` are checked in order — dates,
hotel, room, client, room/hotel match — the first failing check
determines the error kind, and any failure leaves the stored state
(including the booking collection) unchanged. -/
theorem add_request_error_order (st : BookingState) (hid rid cid : Nat)
    (ci co : Int) (text : String) :
    (ci ≥ co → add_request st hid rid cid ci co text = (Except.error Err.validation, st))
    ∧ (ci < co → get_by_id Hotel.id st.hotels hid = none →
        add_request st hid rid cid ci co text = (Except.error Err.notFound, st))
    ∧ (ci < co → ∀ h, get_by_id Hotel.id st.hotels hid = some h →
        get_by_id Room.id st.rooms rid = none →
        add_request st hid rid cid ci co text = (Except.error Err.notFound, st))
    ∧ (ci < co → ∀ h r, get_by_id Hotel.id st.hotels hid = some h →
        get_by_id Room.id st.rooms rid = some r →
        get_by_id Client.id st.clients cid = none →
        add_request st hid rid cid ci co text = (Except.error Err.notFound, st))
    ∧ (ci < co → ∀ h r c, get_by_id Hotel.id st.hotels hid = some h →
        get_by_id Room.id st.rooms rid = some r →
        get_by_id Client.id st.clients cid = some c →
        r.hotel_id ≠ h.id →
        add_request st hid rid cid ci co text = (Except.error Err.validation, st))
    ∧ (∀ er st', add_request st hid rid cid ci co text = (Except.error er, st') →
        st' = st) := by
  refine ⟨?_, ?_, ?_, ?_, ?_, ?_⟩
  · intro hge
    rw [add_request, if_pos hge]
  · intro hlt hh
    rw [add_request, if_neg (by omega), hh]
  · intro hlt h hh hr
    rw [add_request, if_neg (by omega)]
    simp only [hh, hr]
  · intro hlt h r hh hr hc
    rw [add_request, if_neg (by omega)]
    simp only [hh, hr, hc]
  · intro hlt h r c hh hr hc hmis
    rw [add_request, if_neg (by omega)]
    simp only [hh, hr, hc, if_pos hmis]
  · intro er st' heq
    by_cases hge : ci ≥ co
    · rw [add_request, if_pos hge] at heq
      exact (congrArg Prod.snd heq).symm
    · rw [add_request, if_neg hge] at heq
      cases hh : get_by_id Hotel.id st.hotels hid with
      | none =>
        simp only [hh] at heq
        exact (congrArg Prod.snd heq).symm
      | some h =>
        simp only [hh] at heq
        cases hr : get_by_id Room.id st.rooms rid with
        | none =>
          simp only [hr] at heq
          exact (congrArg Prod.snd heq).symm
        | some r =>
          simp only [hr] at heq
          cases hc : get_by_id Client.id st.clients cid with
          | none =>
            simp only [hc] at heq
            exact (congrArg Prod.snd heq).symm
          | some c =>
            simp only [hc] at heq
            by_cases hmis : r.hotel_id ≠ h.id
            · rw [if_pos hmis] at heq
              exact (congrArg Prod.snd heq).symm
            · rw [if_neg hmis] at heq
              have := congrArg Prod.fst heq
              simp at this

/-- Witness for C5: a reversed date interval on the demo state fails with
`ValidationError` and leaves the state unchanged. -/
theorem add_request_error_order_witness :
    add_request exState 1 1 1 5 3 ("hi") = (Except.error Err.validation, exState) :=
  (add_request_error_order exState 1 1 1 5 3 ("hi")).1 (by decide)

/-- C6: when every precondition of `add_request` passes, the created
booking carries id `1 + max(existing ids)` (1 on an empty collection),
status Pending, the trimmed request text and the given foreign keys and
dates, and it is appended at the end of the booking collection with all
previously stored bookings (and the other three collections) unchanged. -/
theorem add_request_success_effect (st : BookingState) (hid rid cid : Nat)
    (ci co : Int) (text : String) (h : Hotel) (r : Room) (c : Client)
    (hdate : ci < co)
    (hh : get_by_id Hotel.id st.hotels hid = some h)
    (hr : get_by_id Room.id st.rooms rid = some r)
    (hc : get_by_id Client.id st.clients cid = some c)
    (hmatch : r.hotel_id = h.id) :
    ∃ b, add_request st hid rid cid ci co text =
        (Except.ok b, { st with bookings := st.bookings ++ [b] })
      ∧ b.status = BookingStatus.pending
      ∧ b.request_text = pyStrip text
      ∧ b.hotel_id = hid ∧ b.room_id = rid ∧ b.client_id = cid
      ∧ b.check_in = ci ∧ b.check_out = co
      ∧ (st.bookings = [] → b.id = 1)
      ∧ (∀ x ∈ st.bookings, x.id < b.id)
      ∧ (st.bookings ≠ [] → ∃ x ∈ st.bookings, b.id = x.id + 1) := by
  have hhid : h.id = hid := get_by_id_eq_id Hotel.id st.hotels hid h hh
  have hrid : r.id = rid := get_by_id_eq_id Room.id st.rooms rid r hr
  have hcid : c.id = cid := get_by_id_eq_id Client.id st.clients cid c hc
  refine ⟨{ id := generate_id Booking.id st.bookings
            hotel_id := h.id
            room_id := r.id
            client_id := c.id
            check_in := ci
            check_out := co
            status := BookingStatus.pending
            request_text := pyStrip text }, ?_, rfl, rfl, hhid, hrid, hcid, rfl, rfl,
          ?_, ?_, ?_⟩
  · rw [add_request, if_neg (by omega)]
    simp only [hh, hr, hc]
    rw [if_neg (show ¬r.hotel_id ≠ h.id from fun hne => hne hmatch)]
  · intro hemp
    simp [generate_id, hemp]
  · intro x hx
    exact lt_generate_id Booking.id st.bookings x hx
  · intro hne
    exact generate_id_succ Booking.id st.bookings hne

/-- Witness for C6 on the demo state: the new booking gets id 2 and is
appended behind the existing booking. -/
theorem add_request_success_effect_witness :
    (∃ b, add_request exState 1 1 1 3 5 (" note ") =
        (Except.ok b, { exState with bookings := exState.bookings ++ [b] })
      ∧ b.status = BookingStatus.pending
      ∧ b.request_text = pyStrip (" note ")
      ∧ b.hotel_id = 1 ∧ b.room_id = 1 ∧ b.client_id = 1
      ∧ b.check_in = 3 ∧ b.check_out = 5
      ∧ (exState.bookings = [] → b.id = 1)
      ∧ (∀ x ∈ exState.bookings, x.id < b.id)
      ∧ (exState.bookings ≠ [] → ∃ x ∈ exState.bookings, b.id = x.id + 1)) :=
  add_request_success_effect exState 1 1 1 3 5 (" note ") exHotel exRoom1 exClient
    (by decide) (by decide) (by decide) (by decide) (by decide)

/-- C2: for an existing hotel, `get_reserved_places` considers exactly
the hotel's Confirmed bookings overlapping the window; when every such
booking's room resolves, the total is the capacity summed once per
booking occurrence (a double-booked room counts twice) and the room list
is the per-booking room sequence deduplicated by id, first seen first
(a sublist of it with no repeated id that still covers every id); when
some booking's room does not resolve, the whole call fails with
`NotFoundError`. -/
theorem reserved_places_spec (st : BookingState) (hid : Nat) (s e : Int)
    (h : Hotel) (hh : get_by_id Hotel.id st.hotels hid = some h) :
    (∀ b, b ∈ confirmed_in_period st hid s e ↔
        b ∈ st.bookings ∧ b.hotel_id = hid ∧ b.status = BookingStatus.confirmed ∧
          b.check_in < e ∧ b.check_out > s)
    ∧ (∀ rs, resolveRooms st.rooms (confirmed_in_period st hid s e) = some rs →
        get_reserved_places st hid s e =
          Except.ok ((rs.map Room.capacity).sum, dedupById rs)
        ∧ ((dedupById rs).map Room.id).Nodup
        ∧ (dedupById rs).Sublist rs
        ∧ ∀ r ∈ rs, ∃ x ∈ dedupById rs, x.id = r.id)
    ∧ (resolveRooms st.rooms (confirmed_in_period st hid s e) = none →
        get_reserved_places st hid s e = Except.error Err.notFound) := by
  refine ⟨?_, ?_, ?_⟩
  · intro b
    rw [confirmed_in_period, mem_filter_period, List.mem_filter]
    simp only [Bool.and_eq_true, decide_eq_true_eq]
    tauto
  · intro rs hrs
    refine ⟨?_, dedupById_nodup rs, dedupById_sublist rs, dedupById_covers rs⟩
    simp only [get_reserved_places, hh]
    rw [get_reserved_aux_ok st.rooms (confirmed_in_period st hid s e) rs 0 [] [] hrs]
    rw [zero_add, List.nil_append, dedupSkip_nil_eq]
  · intro hrs
    simp only [get_reserved_places, hh]
    exact get_reserved_aux_error st.rooms (confirmed_in_period st hid s e) 0 [] [] hrs

/-- Witness for C2 on the specification's §8 scenario: total 2, room
list `[exRoom1]`. -/
theorem reserved_places_spec_witness :
    get_reserved_places exState 1 0 9 = Except.ok (2, [exRoom1]) := by
  have h := ((reserved_places_spec exState 1 0 9 exHotel (by decide)).2.1 [exRoom1]
    (by decide)).1
  rw [h]
  decide

/-- C3: whenever `get_reserved_places` succeeds, `get_free_places` on the
same arguments returns exactly the hotel's rooms whose id is absent from
the reserved-room list, with the free total the sum of their capacities;
and (with the data-model invariant that room ids are unique) every room
of the hotel lands in exactly one of the two room lists. -/
theorem free_places_complement (st : BookingState) (hid : Nat) (s e : Int)
    (t : Int) (reserved : List Room)
    (hres : get_reserved_places st hid s e = Except.ok (t, reserved)) :
    get_free_places st hid s e =
      Except.ok (((freeRoomsSpec st hid reserved).map Room.capacity).sum,
        freeRoomsSpec st hid reserved)
    ∧ ((st.rooms.map Room.id).Nodup →
        ∀ r ∈ st.rooms, r.hotel_id = hid →
          (r ∈ reserved ∧ r ∉ freeRoomsSpec st hid reserved)
          ∨ (r ∉ reserved ∧ r ∈ freeRoomsSpec st hid reserved)) := by
  have hhot : ∃ h, get_by_id Hotel.id st.hotels hid = some h := by
    cases hgh : get_by_id Hotel.id st.hotels hid with
    | none => rw [get_reserved_places, hgh] at hres; cases hres
    | some h => exact ⟨h, rfl⟩
  obtain ⟨h, hh⟩ := hhot
  have hsub : ∀ x ∈ reserved, x ∈ st.rooms := by
    intro x hx
    have hres' := hres
    simp only [get_reserved_places, hh] at hres'
    rcases get_reserved_aux_subset st.rooms (confirmed_in_period st hid s e)
        0 t [] reserved [] hres' x hx with hcase | hcase
    · simp at hcase
    · exact hcase
  constructor
  · simp only [get_free_places, hh, hres]
    rw [foldl_capacity, zero_add, freeRoomsSpec]
  · intro hnd r hr hrhid
    by_cases hidin : r.id ∈ reserved.map Room.id
    · left
      obtain ⟨r', hr', hid'⟩ := List.mem_map.mp hidin
      have : r' = r :=
        List.inj_on_of_nodup_map hnd (hsub r' hr') hr hid'
      constructor
      · rw [← this]; exact hr'
      · intro hmem
        have := List.mem_filter.mp hmem
        simp only [decide_eq_true_eq] at this
        exact this.2 hidin
    · right
      constructor
      · intro hmem
        exact hidin (List.mem_map.mpr ⟨r, hmem, rfl⟩)
      · rw [freeRoomsSpec]
        refine List.mem_filter.mpr ⟨List.mem_filter.mpr ⟨hr, by simpa using hrhid⟩, ?_⟩
        simpa using hidin

/-- Witness for C3 on the §8 scenario: the free side is total 3 with room
list `[exRoom2]`, the complement of the reserved side. -/
theorem free_places_complement_witness :
    get_free_places exState 1 0 9 = Except.ok (3, [exRoom2]) := by
  have h := (free_places_complement exState 1 0 9 2 [exRoom1] (by decide)).1
  rw [h]
  decide

/-- C7 (refuted claim, in-memory repository): `update_client` with a valid
`first_name` and a whitespace-only `last_name` raises `ValidationError`
*after* the first-name assignment has already reached the stored object,
so the state observable through `get_all` afterwards differs from the
state before the call — the stored client's `first_name` is the new
value.  This contradicts the claim that a failing operation leaves the
stored state unchanged. -/
theorem update_client_partial_mutation :
    update_client [exStoredClient] 1 (some ("New")) (some ("   ")) none none
      = (Except.error Err.validation, [{ exStoredClient with first_name := "New" }])
    ∧ [{ exStoredClient with first_name := "New" }] ≠ [exStoredClient] := by
  exact ⟨by decide, by decide⟩

/-- C8: for an existing hotel, `get_clients_with_bookings` succeeds and
returns a duplicate-free list containing precisely those clients some
Confirmed booking of that hotel resolves to — clients with only Pending
or Cancelled bookings are excluded, and a client id that no longer
resolves is skipped without failing the call. -/
theorem clients_with_bookings_spec (st : BookingState) (hid : Nat)
    (h : Hotel) (hh : get_by_id Hotel.id st.hotels hid = some h) :
    ∃ cs, get_clients_with_bookings st hid = Except.ok cs
      ∧ (∀ c, c ∈ cs ↔ ∃ b ∈ st.bookings, b.hotel_id = hid ∧
          b.status = BookingStatus.confirmed ∧
          get_by_id Client.id st.clients b.client_id = some c)
      ∧ cs.Nodup := by
  refine ⟨(dedupNats ((st.bookings.filter (fun b =>
      decide (b.hotel_id = hid) && decide (b.status = BookingStatus.confirmed))).map
        Booking.client_id)).filterMap (fun cid => get_by_id Client.id st.clients cid),
    ?_, ?_, ?_⟩
  · simp only [get_clients_with_bookings, hh]
  · intro c
    rw [List.mem_filterMap]
    constructor
    · rintro ⟨cid, hcid, hcres⟩
      rw [mem_dedupNats] at hcid
      obtain ⟨b, hbmem, hbcid⟩ := List.mem_map.mp hcid
      have hb := List.mem_filter.mp hbmem
      simp only [Bool.and_eq_true, decide_eq_true_eq] at hb
      exact ⟨b, hb.1, hb.2.1, hb.2.2, by rw [hbcid]; exact hcres⟩
    · rintro ⟨b, hbmem, hbhid, hbst, hbres⟩
      refine ⟨b.client_id, ?_, hbres⟩
      rw [mem_dedupNats]
      exact List.mem_map_of_mem Booking.client_id
        (List.mem_filter.mpr ⟨hbmem, by simp [hbhid, hbst]⟩)
  · refine List.Nodup.filterMap ?_ (dedupNats_nodup _)
    intro a a' c hca hca'
    have h1 : c.id = a := get_by_id_eq_id Client.id st.clients a c hca
    have h2 : c.id = a' := get_by_id_eq_id Client.id st.clients a' c hca'
    rw [← h1, ← h2]

/-- Witness for C8 on the demo state, together with the evaluated result:
exactly the one client holding the confirmed booking. -/
theorem clients_with_bookings_spec_witness :
    (∃ cs, get_clients_with_bookings exState 1 = Except.ok cs
      ∧ (∀ c, c ∈ cs ↔ ∃ b ∈ exState.bookings, b.hotel_id = 1 ∧
          b.status = BookingStatus.confirmed ∧
          get_by_id Client.id exState.clients b.client_id = some c)
      ∧ cs.Nodup)
    ∧ get_clients_with_bookings exState 1 = Except.ok [exClient] :=
  ⟨clients_with_bookings_spec exState 1 exHotel (by decide), by decide⟩

/-- C9: `calculate_booking_price` fails with `NotFoundError` when the
booking or its room does not resolve; on a resolved pair it fails with
`ValidationError` when `check_out - check_in ≤ 0` and otherwise returns
`(check_out - check_in) * price_per_night`. -/
theorem booking_price_spec (st : BookingState) (bid : Nat) :
    (get_by_id Booking.id st.bookings bid = none →
      calculate_booking_price st bid = Except.error Err.notFound)
    ∧ (∀ b, get_by_id Booking.id st.bookings bid = some b →
        (get_by_id Room.id st.rooms b.room_id = none →
          calculate_booking_price st bid = Except.error Err.notFound)
        ∧ (∀ r, get_by_id Room.id st.rooms b.room_id = some r →
            (b.check_out - b.check_in ≤ 0 →
              calculate_booking_price st bid = Except.error Err.validation)
            ∧ (0 < b.check_out - b.check_in →
              calculate_booking_price st bid =
                Except.ok (r.price_per_night * ((b.check_out - b.check_in : Int) : ℚ))))) := by
  refine ⟨?_, ?_⟩
  · intro hb
    simp only [calculate_booking_price, hb]
  · intro b hb
    refine ⟨?_, ?_⟩
    · intro hr
      simp only [calculate_booking_price, hb, hr]
    · intro r hr
      refine ⟨?_, ?_⟩
      · intro hd
        simp only [calculate_booking_price, hb, hr, Booking.duration_days, if_pos hd]
      · intro hd
        simp only [calculate_booking_price, hb, hr, Booking.duration_days,
          if_neg (by omega : ¬ b.check_out - b.check_in ≤ 0)]

/-- Witness for C9: the specification's example — 100 per night for three
nights gives 300. -/
theorem booking_price_spec_witness :
    calculate_booking_price exPriceState 1 = Except.ok 300 := by
  have h := (((booking_price_spec exPriceState 1).2 exBookingThreeNights
    (by decide)).2 exRoom1 (by decide)).2 (by decide)
  rw [h]
  norm_num [exRoom1, exBookingThreeNights, exBooking]

end HotelSys
